import Mathlib

/-!
Verification development for the OpenChat repository (openchat_with_plugins.py,
desktop_app.py, src/models.py, plugin_interface.py).

The Python code is shallowly embedded: each relevant class or method becomes an
executable Lean definition translated from its source.  Python `int` is `Int`
(or `Nat` where the source value is a length), Python lists are `List`,
Python dicts holding exported chat records become the `Rec` structure whose
fields are `Option String` (a missing key is `none`), and a method that can
raise becomes a function returning the error alongside (or instead of) the
new state.

The standard library `datetime` is modelled by an abstract instant (`Nat`)
whose `isoformat` serialization is the decimal numeral and whose
`fromisoformat` is the decimal parser: this preserves the two properties the
repository relies on, namely that `fromisoformat` inverts `isoformat` and
that it rejects malformed strings.
-/

namespace OpenChat

/-! ### Model of datetime.isoformat / datetime.fromisoformat -/

/-- One decimal digit rendered as a character, `0 ≤ d ≤ 9` expected. -/
def digitChar (d : Nat) : Char :=
  Char.ofNat (48 + d)

/-- Inverse of `digitChar` on actual digit characters; `none` otherwise. -/
def charDigit (c : Char) : Option Nat :=
  if 48 ≤ c.toNat ∧ c.toNat ≤ 57 then some (c.toNat - 48) else none

/-- Parse every character of a string as a digit (most significant first). -/
def parseDigits : List Char → Option (List Nat)
  | [] => some []
  | c :: cs =>
    match charDigit c, parseDigits cs with
    | some d, some ds => some (d :: ds)
    | _, _ => none

/-- Model of `datetime.isoformat`: serialize the abstract instant. -/
def isoformat (t : Nat) : String :=
  if t = 0 then "0" else String.mk (((Nat.digits 10 t).map digitChar).reverse)

/-- Model of `datetime.fromisoformat`: parse a serialized instant, failing
on malformed input (Python raises `ValueError` there). -/
def fromisoformat (s : String) : Option Nat :=
  match s.toList with
  | [] => none
  | c :: cs => (parseDigits (c :: cs)).map fun ds => Nat.ofDigits 10 ds.reverse

/-! ### plugin_interface.Message

`Message` from plugin_interface.py (also the in-memory message type of
`ChatWidget` in openchat_with_plugins.py): role and content strings, a
creation timestamp, and a display format defaulting to "text". -/

structure Message where
  role : String
  content : String
  timestamp : Nat
  display_format : String := "text"
deriving DecidableEq, Repr

/-- A Python dict as produced/consumed by export, import and the API payload
builder: each chat-record key either absent (`none`) or bound to a string. -/
structure Rec where
  role : Option String := none
  content : Option String := none
  timestamp : Option String := none
deriving DecidableEq, Repr

/-- Embedding of `Message.to_dict` (plugin_interface.py line 22): a dict with
role, content and the isoformat timestamp. -/
def Message.to_dict (m : Message) : Rec :=
  { role := some m.role, content := some m.content,
    timestamp := some (isoformat m.timestamp) }

/-! ### MainWindow token budgeting (openchat_with_plugins.py) -/

/-- Embedding of `MainWindow._estimate_tokens` (line 640): `len(text) // 3`,
Python floor division. -/
def estimate_tokens (text : String) : Nat :=
  text.length / 3

/-- Modelled from the spec: the spec's stated heuristic
`ceil(length_in_characters / 3)`, written as a second definition only to be
compared with `estimate_tokens`, which comes from the source. -/
def estimate_tokens_ceil (text : String) : Nat :=
  (text.length + 2) / 3

/-- The inner loop of `MainWindow._prepare_api_context` (lines 663-671):
walk the reversed history (newest first), keep a message when the running
total after adding it stays within `available`, and break at the first
message that does not fit. -/
def budget_select : List Message → Int → Int → List Message
  | [], _, _ => []
  | m :: rest, current, available =>
    let t : Int := estimate_tokens m.content
    if current + t ≤ available then m :: budget_select rest (current + t) available
    else []

/-- The system-prompt dict inserted at position 0 (line 679): only a role and
a content key. -/
def systemEntry (system_prompt : String) : Rec :=
  { role := some "system", content := some system_prompt }

/-- Embedding of `MainWindow._prepare_api_context` (lines 643-681).
Parameters are the values the method reads from settings: the system prompt,
the `send_context` checkbox, the model's `context_length`, the configured
`max_tokens` (the reserved output tokens) and the chat history.  The
`insert(0, ...)` accumulation makes the selected suffix chronological again,
hence the `reverse` after `budget_select`. -/
def prepare_api_context (system_prompt : String) (send_context : Bool)
    (context_limit : Int) (max_tokens_val : Int)
    (messages : List Message) : List Rec :=
  let history :=
    if send_context then
      let safety_margin : Int :=
        max_tokens_val + (estimate_tokens system_prompt : Int) + 500
      let available_tokens : Int := context_limit - safety_margin
      ((budget_select messages.reverse 0 available_tokens).reverse).map
        Message.to_dict
    else
      match messages.getLast? with
      | some m => [m.to_dict]
      | none => []
  if system_prompt ≠ "" then systemEntry system_prompt :: history else history

/-- The history suffix `_prepare_api_context` selects when `send_context` is
true, before serialization (newest first, as accumulated). -/
def budget_selected (system_prompt : String) (context_limit : Int)
    (max_tokens_val : Int) (messages : List Message) : List Message :=
  budget_select messages.reverse 0
    (context_limit -
      (max_tokens_val + (estimate_tokens system_prompt : Int) + 500))

/-- Estimated token sum of a list of messages, as the budgeting loop counts
it (content only). -/
def sumTokens (l : List Message) : Int :=
  (l.map fun m => (estimate_tokens m.content : Int)).sum

/-! ### desktop_app.py data model

`Message` in desktop_app.py (and src/models.py) is a pydantic model whose
role is the Literal "system" | "user" | "assistant"; pydantic equality is
field-by-field value equality, matched here by `DecidableEq`. -/

namespace Desktop

inductive Role where
  | system
  | user
  | assistant
deriving DecidableEq, Repr

/-- Serialization of the role Literal (the string pydantic stores). -/
def Role.toStr : Role → String
  | .system => "system"
  | .user => "user"
  | .assistant => "assistant"

/-- Pydantic's Literal validation when a role string is parsed back. -/
def Role.ofStr : String → Option Role
  | "system" => some .system
  | "user" => some .user
  | "assistant" => some .assistant
  | _ => none

structure Message where
  role : Role
  content : String
  timestamp : Nat
  display_format : String := "text"
deriving DecidableEq, Repr

/-- Embedding of desktop_app.py `Message.to_dict` (line 87). -/
def Message.to_dict (m : Message) : OpenChat.Rec :=
  { role := some m.role.toStr, content := some m.content,
    timestamp := some (isoformat m.timestamp) }

/-- Embedding of desktop_app.py `Message.from_dict` (line 89): reads
`data['role']`, `data['content']`, `datetime.fromisoformat(data['timestamp'])`
(a missing key raises `KeyError`, a malformed timestamp `ValueError`) and lets
pydantic validate the role Literal; display_format is not restored and takes
its default. -/
def Message.from_dict (d : OpenChat.Rec) : Except String Message :=
  match d.role with
  | none => .error "KeyError: role"
  | some rs =>
    match d.content with
    | none => .error "KeyError: content"
    | some c =>
      match d.timestamp with
      | none => .error "KeyError: timestamp"
      | some ts =>
        match fromisoformat ts with
        | none => .error "ValueError: invalid isoformat string"
        | some t =>
          match Role.ofStr rs with
          | none => .error "ValidationError: role"
          | some r => .ok { role := r, content := c, timestamp := t }

structure ChatHistory where
  messages : List Message
  max_length : Nat := 20
deriving DecidableEq, Repr

/-- Python `l[-k:]`: the last `k` elements when `k > 0`, but the whole list
when `k = 0` (since `l[-0:]` is `l[0:]`). -/
def pyLastSlice (l : List Message) (k : Nat) : List Message :=
  if k = 0 then l else l.drop (l.length - k)

/-- Embedding of `ChatHistory.add_message` (desktop_app.py lines 97-102,
identical to `add_message` plus `_trim_history` in src/models.py lines
22-40): append, then when the length exceeds `max_length` keep the most
recent `max_length` entries, re-prepending the position-0 system message
when there was one and it is not already inside the retained suffix.
Python `in` is value equality, so membership is decidable equality here. -/
def ChatHistory.add_message (h : ChatHistory) (m : Message) : ChatHistory :=
  let msgs := h.messages ++ [m]
  if msgs.length > h.max_length then
    let relevant := pyLastSlice msgs h.max_length
    match msgs.head? with
    | some first =>
      if first.role = Role.system ∧ first ∉ relevant then
        { h with messages := first :: relevant }
      else
        { h with messages := relevant }
    | none => { h with messages := relevant }
  else
    { h with messages := msgs }

/-- Embedding of `ChatHistory.export_history` (desktop_app.py line 107). -/
def ChatHistory.export_history (h : ChatHistory) : List OpenChat.Rec :=
  h.messages.map Message.to_dict

/-- The list comprehension `[Message.from_dict(d) for d in data]`: built
left to right, aborting at the first record whose parse raises. -/
def buildMessages : List OpenChat.Rec → Except String (List Message)
  | [] => .ok []
  | d :: ds =>
    match Message.from_dict d with
    | .error e => .error e
    | .ok m =>
      match buildMessages ds with
      | .error e => .error e
      | .ok ms => .ok (m :: ms)

/-- Embedding of `ChatHistory.import_history` (desktop_app.py line 109):
`self.messages = [Message.from_dict(d) for d in data]`.  The comprehension
is fully evaluated before the assignment, so on a raise the stored messages
are unchanged; the result pairs the state after the call with the raised
error, if any. -/
def ChatHistory.import_history (h : ChatHistory) (data : List OpenChat.Rec) :
    ChatHistory × Option String :=
  match buildMessages data with
  | .ok ms => ({ h with messages := ms }, none)
  | .error e => (h, some e)

end Desktop

/-! ### ChatWidget and the streaming pipeline (openchat_with_plugins.py)

`ChatWidget` keeps `messages` (plugin_interface `Message` objects) and
`_streaming_msg`, a reference to the message currently being streamed into;
the reference is modelled as the index of that message. -/

namespace Widget

structure ChatState where
  messages : List OpenChat.Message
  streamingIdx : Option Nat := none
deriving DecidableEq, Repr

/-- Replace the content of the i-th message by `f` of it (the in-place
`self._streaming_msg.content` mutation seen through the list). -/
def setContent : List OpenChat.Message → Nat → (String → String) →
    List OpenChat.Message
  | [], _, _ => []
  | m :: rest, 0, f => { m with content := f m.content } :: rest
  | m :: rest, i + 1, f => m :: setContent rest i f

/-- Embedding of `ChatWidget.clear` (line 534): drop all messages and end
any stream. -/
def clear (_st : ChatState) : ChatState :=
  { messages := [], streamingIdx := none }

/-- Embedding of `ChatWidget.add_message` (line 507): append a fresh message
(timestamp `now`); when `streaming` and the role is "assistant" it becomes
the streaming target. -/
def add_message (st : ChatState) (role content : String) (streaming : Bool)
    (now : Nat) : ChatState :=
  let msg : OpenChat.Message :=
    { role := role, content := content, timestamp := now }
  { messages := st.messages ++ [msg],
    streamingIdx :=
      if streaming ∧ role = "assistant" then some st.messages.length
      else st.streamingIdx }

/-- Embedding of `ChatWidget.add_stream_chunk` (line 514): append the chunk
to the streaming message when one is live, otherwise do nothing. -/
def add_stream_chunk (st : ChatState) (chunk : String) : ChatState :=
  match st.streamingIdx with
  | some i => { st with messages := setContent st.messages i (· ++ chunk) }
  | none => st

/-- Embedding of `ChatWidget.end_stream` (line 519). -/
def end_stream (st : ChatState) : ChatState :=
  { st with streamingIdx := none }

/-- Embedding of `ChatWidget.export_history` (line 522). -/
def export_history (st : ChatState) : List OpenChat.Rec :=
  st.messages.map Message.to_dict

/-- One record of `ChatWidget.import_history` (line 528):
`Message(d["role"], d["content"], datetime.fromisoformat(d.get("timestamp")))`.
A missing role or content key raises `KeyError`; a missing timestamp makes
`d.get` return `None` and `fromisoformat` raise `TypeError`; a malformed
timestamp raises `ValueError`.  The role is not validated. -/
def parseRecord (d : OpenChat.Rec) : Except String OpenChat.Message :=
  match d.role with
  | none => .error "KeyError: role"
  | some r =>
    match d.content with
    | none => .error "KeyError: content"
    | some c =>
      match d.timestamp with
      | none => .error "TypeError: fromisoformat requires a str"
      | some ts =>
        match fromisoformat ts with
        | none => .error "ValueError: invalid isoformat string"
        | some t => .ok { role := r, content := c, timestamp := t }

/-- The list comprehension inside `ChatWidget.import_history`, aborting at
the first record that raises. -/
def buildWidgetMessages : List OpenChat.Rec → Except String (List OpenChat.Message)
  | [] => .ok []
  | d :: ds =>
    match parseRecord d with
    | .error e => .error e
    | .ok m =>
      match buildWidgetMessages ds with
      | .error e => .error e
      | .ok ms => .ok (m :: ms)

/-- Embedding of `ChatWidget.import_history` (lines 525-532): `clear` first,
then build the imported list; on success it becomes the new message list, on
failure `clear` again and raise `ValueError`.  The result pairs the state
after the call with the raised error, if any. -/
def import_history (st : ChatState) (data : List OpenChat.Rec) :
    ChatState × Option String :=
  let cleared := clear st
  match buildWidgetMessages data with
  | .ok ms => ({ cleared with messages := ms }, none)
  | .error e => (clear cleared, some ("Ungültiges Chat-Format: " ++ e))

end Widget

/-! ### ApiWorker signals and the MainWindow handlers -/

/-- A signal emitted by `ApiWorker.make_request` towards the GUI thread. -/
inductive Sig where
  | chunk (s : String)
  | errorSig (msg : String) (code : Int)
  | finished
deriving DecidableEq, Repr

/-- Embedding of the streaming loop of `ApiWorker.make_request`
(lines 130-139 and 148-150): one `chunk_ready` per fragment until the stream
ends or `stop_requested` is observed at a fragment boundary (after
`stopAfter` fragments); the `finally` block emits `error_occurred(-1)` when a
stop was requested, then always `finished`. -/
def make_request_stream (fragments : List String) (stopAfter : Option Nat) :
    List Sig :=
  match stopAfter with
  | none => fragments.map Sig.chunk ++ [Sig.finished]
  | some k =>
    (fragments.take k).map Sig.chunk ++
      [Sig.errorSig "Anfrage abgebrochen" (-1), Sig.finished]

/-- Embedding of `MainWindow._handle_error` (lines 741-753) as far as it
touches the chat state: code -1 (cancellation) appends the marker
"\n\n[Abgebrochen]" to the streaming message; any other code replaces the
streaming message's content with the error display, or appends a fresh
assistant message carrying it when no stream is live. -/
def handle_error (st : Widget.ChatState) (code : Int) (now : Nat) :
    Widget.ChatState :=
  if code = -1 then
    match st.streamingIdx with
    | some i =>
      { st with messages :=
          Widget.setContent st.messages i (· ++ "\n\n[Abgebrochen]") }
    | none => st
  else
    let error_display := "Fehler (Code: " ++ toString code ++ ")"
    match st.streamingIdx with
    | some i =>
      { st with messages :=
          Widget.setContent st.messages i (fun _ => error_display) }
    | none => Widget.add_message st "assistant" error_display false now

/-- Embedding of `MainWindow._on_worker_finish` (lines 729-739) as far as it
touches the chat state: the stream is ended. -/
def on_worker_finish (st : Widget.ChatState) : Widget.ChatState :=
  Widget.end_stream st

/-- Dispatch of one worker signal by the connected MainWindow slots. -/
def handle_sig (now : Nat) (st : Widget.ChatState) (s : Sig) :
    Widget.ChatState :=
  match s with
  | .chunk c => Widget.add_stream_chunk st c
  | .errorSig _ code => handle_error st code now
  | .finished => on_worker_finish st

/-- Consume a whole signal sequence in order. -/
def run_signals (now : Nat) (st : Widget.ChatState) (sigs : List Sig) :
    Widget.ChatState :=
  sigs.foldl (handle_sig now) st

/-- The terminal outcome of one request, as the handlers classify it:
`error_occurred` with code -1 is the cancellation path, any other
`error_occurred` is a failure, otherwise the stream completed. -/
inductive Outcome where
  | completed
  | cancelled
  | failed (code : Int)
deriving DecidableEq, Repr

def outcome : List Sig → Outcome
  | [] => .completed
  | .errorSig _ code :: _ => if code = -1 then .cancelled else .failed code
  | _ :: rest => outcome rest

/-! ### PluginManager.dispatch_user_message (lines 577-585)

A plugin's `on_user_message` hook either returns a boolean or raises; the
hook is therefore a function into `Except`.  The manager consults plugins in
load order, returns `true` at the first hook returning `True`, logs and skips
a raising hook, and returns `false` when no plugin handled the text. -/

def dispatch_user_message (plugins : List (String → Except String Bool))
    (message : String) : Bool :=
  match plugins with
  | [] => false
  | p :: rest =>
    match p message with
    | .ok true => true
    | .ok false => dispatch_user_message rest message
    | .error _ => dispatch_user_message rest message

/-- A chat record is structurally invalid in the sense of the import format
check: role, content or timestamp key missing, or a timestamp that does not
parse. -/
def invalidRec (d : Rec) : Bool :=
  d.role.isNone || d.content.isNone ||
    (match d.timestamp with
     | none => true
     | some s => (fromisoformat s).isNone)

/-! ## Theorems -/

/-! ### Helper lemmas about the datetime model -/

theorem charDigit_digitChar {d : Nat} (h : d < 10) :
    charDigit (digitChar d) = some d := by
  interval_cases d <;> decide

theorem parseDigits_map_digitChar (ds : List Nat) (h : ∀ d ∈ ds, d < 10) :
    parseDigits (ds.map digitChar) = some ds := by
  induction ds with
  | nil => rfl
  | cons d ds ih =>
    have hd : d < 10 := h d (List.mem_cons_self d ds)
    have hds : ∀ x ∈ ds, x < 10 := fun x hx => h x (List.mem_cons_of_mem d hx)
    simp [parseDigits, charDigit_digitChar hd, ih hds]

/-- The serialization round-trip the import/export code depends on. -/
theorem fromisoformat_isoformat (t : Nat) :
    fromisoformat (isoformat t) = some t := by
  by_cases h0 : t = 0
  · subst h0; decide
  · have hne : Nat.digits 10 t ≠ [] := Nat.digits_ne_nil_iff_ne_zero.mpr h0
    have hlt : ∀ d ∈ Nat.digits 10 t, d < 10 := fun d hd =>
      Nat.digits_lt_base (by norm_num) hd
    have hrev : ((Nat.digits 10 t).map digitChar).reverse
        = (Nat.digits 10 t).reverse.map digitChar := by
      simp [List.map_reverse]
    have hparse : parseDigits ((Nat.digits 10 t).reverse.map digitChar)
        = some (Nat.digits 10 t).reverse := by
      refine parseDigits_map_digitChar _ ?_
      intro d hd
      exact hlt d (List.mem_reverse.mp hd)
    unfold isoformat fromisoformat
    rw [if_neg h0]
    rcases hcs : ((Nat.digits 10 t).map digitChar).reverse with _ | ⟨c, cs⟩
    · exfalso
      apply hne
      have := congrArg List.length hcs
      simp at this
      exact this
    · have hmk : (String.mk (c :: cs)).toList = c :: cs := rfl
      simp only [hmk]
      rw [← hcs, hrev, hparse]
      simp [Nat.ofDigits_digits]

/-! ### Helper lemmas about the budgeting loop -/

theorem sumTokens_nil : sumTokens [] = 0 := rfl

theorem sumTokens_cons (m : Message) (l : List Message) :
    sumTokens (m :: l) = (estimate_tokens m.content : Int) + sumTokens l := by
  simp [sumTokens]

/-- A non-empty selection of the budgeting loop keeps the running total
within the budget: the selected estimate sum plus the starting total stays
at or below `available`. -/
theorem budget_select_le (l : List Message) :
    ∀ current available : Int,
      budget_select l current available ≠ [] →
      current + sumTokens (budget_select l current available) ≤ available := by
  induction l with
  | nil => intro current available hne; simp [budget_select] at hne
  | cons m rest ih =>
    intro current available hne
    by_cases hc : current + (estimate_tokens m.content : Int) ≤ available
    · rw [budget_select, if_pos hc] at hne ⊢
      rcases h2 : budget_select rest (current + (estimate_tokens m.content : Int))
          available with _ | ⟨x, xs⟩
      · rw [sumTokens_cons, sumTokens_nil]
        linarith
      · have hrec := ih (current + (estimate_tokens m.content : Int)) available
          (by rw [h2]; simp)
        rw [h2] at hrec
        rw [sumTokens_cons]
        linarith
    · rw [budget_select, if_neg hc] at hne
      exact absurd rfl hne

/-- With a strictly negative budget the loop selects nothing: the first
candidate message already fails the non-negative running-total test. -/
theorem budget_select_neg (l : List Message) (available : Int)
    (h : available < 0) : budget_select l 0 available = [] := by
  cases l with
  | nil => rfl
  | cons m rest =>
    rw [budget_select, if_neg]
    intro hc
    have : (0 : Int) ≤ (estimate_tokens m.content : Int) := Int.ofNat_nonneg _
    omega

/-- How `prepare_api_context` assembles its result in the `send_context`
branch: the optional system entry followed by the serialized selection. -/
theorem prepare_api_context_eq (sp : String) (L R : Int)
    (msgs : List Message) :
    prepare_api_context sp true L R msgs =
      (if sp = "" then [] else [systemEntry sp]) ++
        ((budget_selected sp L R msgs).reverse.map Message.to_dict) := by
  by_cases hsp : sp = ""
  · simp [prepare_api_context, budget_selected, hsp]
  · simp [prepare_api_context, budget_selected, hsp]

/-! ### The claims -/

/-- C1: with `include_history` true, the history part of the built request is
a newest-to-oldest selection that never exceeds the budget: whenever it is
non-empty, its estimated token sum plus the system prompt's estimate is at
most `context_limit - reserved_output_tokens`; when nothing fits, the built
request is the system-only entry or empty, and in general the request is the
optional system entry followed by the serialized selection. -/
theorem prepare_api_context_within_budget (sp : String) (L R : Int)
    (msgs : List Message) :
    (budget_selected sp L R msgs ≠ [] →
      sumTokens (budget_selected sp L R msgs) + (estimate_tokens sp : Int)
        ≤ L - R)
    ∧ (budget_selected sp L R msgs = [] →
      prepare_api_context sp true L R msgs =
        if sp = "" then [] else [systemEntry sp])
    ∧ prepare_api_context sp true L R msgs =
        (if sp = "" then [] else [systemEntry sp]) ++
          ((budget_selected sp L R msgs).reverse.map Message.to_dict) := by
  refine ⟨?_, ?_, prepare_api_context_eq sp L R msgs⟩
  · intro hne
    have h := budget_select_le msgs.reverse 0
      (L - (R + (estimate_tokens sp : Int) + 500)) hne
    unfold budget_selected at *
    linarith
  · intro hempty
    rw [prepare_api_context_eq sp L R msgs, hempty]
    simp

/-- Witness for C1 at a concrete input: the scenario history fits and the
bound holds. -/
theorem prepare_api_context_within_budget_witness :
    sumTokens (budget_selected "" 8192 1024
        [{ role := "user", content := "hi", timestamp := 0 }])
      + (estimate_tokens "" : Int) ≤ 8192 - 1024 :=
  (prepare_api_context_within_budget "" 8192 1024
    [{ role := "user", content := "hi", timestamp := 0 }]).1 (by decide)

/-- C2 counterexample: the budgeter's estimate is `len // 3` (floor), not
`ceil(len / 3)`; they differ on a 4-character text. -/
theorem estimate_tokens_not_ceil :
    estimate_tokens "aaaa" = 1 ∧ estimate_tokens_ceil "aaaa" = 2 ∧
      estimate_tokens "aaaa" ≠ estimate_tokens_ceil "aaaa" := by
  decide

/-- C2 amended: the token estimate equals `floor(length / 3)`; it agrees
with the spec's `ceil(length / 3)` exactly when the length is a multiple
of 3. -/
theorem estimate_tokens_floor (text : String) :
    estimate_tokens text = text.length / 3 ∧
      (estimate_tokens text = estimate_tokens_ceil text ↔
        text.length % 3 = 0) := by
  refine ⟨rfl, ?_⟩
  unfold estimate_tokens estimate_tokens_ceil
  omega

/-- C3 counterexample: with `available = 0` (context_limit 4596, max_tokens
4096, empty system prompt) a 2-character message costs 0 estimated tokens
and is still included, so the result is not the system-only/empty payload. -/
theorem prepare_api_context_zero_available_cex :
    (4596 - ((4096 : Int) + (estimate_tokens "" : Int) + 500) ≤ 0) ∧
      prepare_api_context "" true 4596 4096
          [{ role := "user", content := "hi", timestamp := 0 }]
        = [Message.to_dict { role := "user", content := "hi", timestamp := 0 }] := by
  constructor
  · decide
  · decide

/-- C3 amended: when `available = context_limit - safety_margin` is strictly
negative, the built request contains no history message: it is exactly the
system entry (for a non-empty system prompt) or empty.  At `available = 0`
messages of estimated cost 0 are still included. -/
theorem prepare_api_context_neg_available (sp : String) (L R : Int)
    (msgs : List Message)
    (h : L - (R + (estimate_tokens sp : Int) + 500) < 0) :
    prepare_api_context sp true L R msgs =
      if sp = "" then [] else [systemEntry sp] := by
  rw [prepare_api_context_eq sp L R msgs]
  unfold budget_selected
  rw [budget_select_neg msgs.reverse _ h]
  simp

/-- Witness for C3 amended at a concrete negative budget. -/
theorem prepare_api_context_neg_available_witness :
    prepare_api_context "sys" true 100 4096
        [{ role := "user", content := "hi", timestamp := 0 }]
      = if "sys" = "" then [] else [systemEntry "sys"] :=
  prepare_api_context_neg_available "sys" 100 4096
    [{ role := "user", content := "hi", timestamp := 0 }] (by decide)

/-- C9 counterexample: with `include_history` false the single history entry
is serialized by `to_dict` and therefore carries a timestamp key as well, so
not every returned entry is a record of exactly a role and a content field. -/
theorem prepare_api_context_no_history_cex :
    prepare_api_context "s" false 8192 1024
        [{ role := "user", content := "hi", timestamp := 0 }]
      = [systemEntry "s",
          Message.to_dict { role := "user", content := "hi", timestamp := 0 }] ∧
      (Message.to_dict
        { role := "user", content := "hi", timestamp := 0 }).timestamp ≠ none := by
  constructor
  · decide
  · decide

/-- C9 amended: with `include_history` false the built request is the
optional system entry (role and content only) followed by the most recent
history message serialized with role, content and timestamp; it has at most
2 entries and ignores the budget parameters entirely. -/
theorem prepare_api_context_no_history (sp : String) (L R : Int)
    (msgs : List Message) :
    prepare_api_context sp false L R msgs =
      (if sp = "" then [] else [systemEntry sp]) ++
        (match msgs.getLast? with
         | some m => [m.to_dict]
         | none => []) ∧
    (prepare_api_context sp false L R msgs).length ≤ 2 := by
  have heq : prepare_api_context sp false L R msgs =
      (if sp = "" then [] else [systemEntry sp]) ++
        (match msgs.getLast? with
         | some m => [m.to_dict]
         | none => []) := by
    by_cases hsp : sp = "" <;>
      cases hlast : msgs.getLast? <;>
        simp [prepare_api_context, hsp, hlast]
  refine ⟨heq, ?_⟩
  rw [heq]
  by_cases hsp : sp = "" <;>
    cases hlast : msgs.getLast? <;>
      simp [hsp]

/-! ### Helper lemmas about ChatHistory trimming -/

theorem mem_of_head?_eq {α : Type} {l : List α} {a : α}
    (h : l.head? = some a) : a ∈ l := by
  cases l with
  | nil => simp at h
  | cons x xs =>
    simp at h
    subst h
    exact List.mem_cons_self x xs

theorem pyLastSlice_length_of_lt (l : List Desktop.Message) (k : Nat)
    (hk : k ≠ 0) (hlt : k < l.length) :
    (Desktop.pyLastSlice l k).length = k := by
  simp [Desktop.pyLastSlice, hk]
  omega

/-- The messages stored after `add_message` when no trim is needed. -/
theorem add_message_messages_of_le (h : Desktop.ChatHistory)
    (m : Desktop.Message)
    (hle : ¬ (h.messages ++ [m]).length > h.max_length) :
    (h.add_message m).messages = h.messages ++ [m] := by
  unfold Desktop.ChatHistory.add_message
  rw [if_neg hle]

/-- The messages stored after `add_message` when the cap is exceeded. -/
theorem add_message_messages_of_gt (h : Desktop.ChatHistory)
    (m : Desktop.Message) (first : Desktop.Message)
    (hh : (h.messages ++ [m]).head? = some first)
    (hgt : (h.messages ++ [m]).length > h.max_length) :
    (h.add_message m).messages =
      if first.role = Desktop.Role.system ∧
          first ∉ Desktop.pyLastSlice (h.messages ++ [m]) h.max_length
      then first :: Desktop.pyLastSlice (h.messages ++ [m]) h.max_length
      else Desktop.pyLastSlice (h.messages ++ [m]) h.max_length := by
  unfold Desktop.ChatHistory.add_message
  rw [if_pos hgt, hh]
  by_cases hc : first.role = Desktop.Role.system ∧
      first ∉ Desktop.pyLastSlice (h.messages ++ [m]) h.max_length
  · simp [hc]
  · simp [hc]

/-- C4 counterexample: with `max_length = 1` and a system message at
position 0, adding a second message re-prepends the system message and
leaves 2 stored messages, exceeding `max_length`. -/
theorem add_message_exceeds_max_length :
    ¬ ((Desktop.ChatHistory.add_message
          { messages := [⟨Desktop.Role.system, "s", 0, "text"⟩],
            max_length := 1 }
          ⟨Desktop.Role.user, "u", 1, "text"⟩).messages.length
        ≤ 1) := by
  decide

/-- C4 amended: for `max_length ≥ 1`, after `add_message` at most
`max_length + 1` messages are stored (the cap is exceeded only by the
re-prepended system message); a system message at position 0 is still
present afterwards, re-prepended ahead of the retained suffix unless it
already falls within that suffix. -/
theorem add_message_length_and_system (h : Desktop.ChatHistory)
    (m : Desktop.Message) (hmax : 1 ≤ h.max_length) :
    ((h.add_message m).messages.length ≤ h.max_length + 1)
    ∧ (∀ first, (h.messages ++ [m]).head? = some first →
        first.role = Desktop.Role.system →
        first ∈ (h.add_message m).messages)
    ∧ (h.max_length < (h.messages ++ [m]).length →
        ∀ first, (h.messages ++ [m]).head? = some first →
          first.role = Desktop.Role.system →
          (h.add_message m).messages =
            if first ∈ Desktop.pyLastSlice (h.messages ++ [m]) h.max_length
            then Desktop.pyLastSlice (h.messages ++ [m]) h.max_length
            else first :: Desktop.pyLastSlice (h.messages ++ [m]) h.max_length) := by
  by_cases hgt : (h.messages ++ [m]).length > h.max_length
  · have hne : (h.messages ++ [m]).head? ≠ none := by
      cases hl : h.messages ++ [m] with
      | nil => exact absurd (congrArg List.length hl) (by simp)
      | cons a l => simp [hl]
    cases hh : (h.messages ++ [m]).head? with
    | none => exact absurd hh hne
    | some first₀ =>
      have heq := add_message_messages_of_gt h m first₀ hh hgt
      have hrel : (Desktop.pyLastSlice (h.messages ++ [m]) h.max_length).length
          = h.max_length :=
        pyLastSlice_length_of_lt _ _ (by omega) hgt
      refine ⟨?_, ?_, ?_⟩
      · rw [heq]
        by_cases hc : first₀.role = Desktop.Role.system ∧
            first₀ ∉ Desktop.pyLastSlice (h.messages ++ [m]) h.max_length
        · rw [if_pos hc]
          simp [hrel]
        · rw [if_neg hc]
          rw [hrel]
          omega
      · intro first hh' hrole
        injection hh' with hf
        subst hf
        rw [heq]
        by_cases hc : first₀.role = Desktop.Role.system ∧
            first₀ ∉ Desktop.pyLastSlice (h.messages ++ [m]) h.max_length
        · rw [if_pos hc]
          exact List.mem_cons_self _ _
        · rw [if_neg hc]
          push_neg at hc
          exact hc hrole
      · intro _ first hh' hrole
        injection hh' with hf
        subst hf
        rw [heq]
        by_cases hmem : first₀ ∈ Desktop.pyLastSlice (h.messages ++ [m]) h.max_length
        · rw [if_pos hmem, if_neg (by simp [hmem])]
        · rw [if_neg hmem, if_pos ⟨hrole, hmem⟩]
  · have heq := add_message_messages_of_le h m hgt
    refine ⟨?_, ?_, ?_⟩
    · rw [heq]
      omega
    · intro first hh' _
      rw [heq]
      exact mem_of_head?_eq hh'
    · intro hlt
      exact absurd hlt hgt

/-- Witness for C4 amended at a concrete input. -/
theorem add_message_length_and_system_witness :
    ((Desktop.ChatHistory.add_message { messages := [], max_length := 1 }
        ⟨Desktop.Role.user, "u", 1, "text"⟩).messages.length ≤ 2) :=
  (add_message_length_and_system { messages := [], max_length := 1 }
    ⟨Desktop.Role.user, "u", 1, "text"⟩ (by decide)).1

/-! ### Helper lemmas about record parsing -/

theorem parseRecord_error_of_invalid (d : Rec) (h : invalidRec d = true) :
    ∃ e, Widget.parseRecord d = .error e := by
  unfold invalidRec at h
  unfold Widget.parseRecord
  cases hr : d.role with
  | none => exact ⟨_, rfl⟩
  | some r =>
    cases hc : d.content with
    | none => exact ⟨_, rfl⟩
    | some c =>
      cases ht : d.timestamp with
      | none => exact ⟨_, rfl⟩
      | some s =>
        rw [hr, hc, ht] at h
        simp at h
        cases hf : fromisoformat s with
        | none => exact ⟨"ValueError: invalid isoformat string", by simp [hf]⟩
        | some t => rw [hf] at h; simp at h

theorem from_dict_error_of_invalid (d : Rec) (h : invalidRec d = true) :
    ∃ e, Desktop.Message.from_dict d = .error e := by
  unfold invalidRec at h
  unfold Desktop.Message.from_dict
  cases hr : d.role with
  | none => exact ⟨_, rfl⟩
  | some r =>
    cases hc : d.content with
    | none => exact ⟨_, rfl⟩
    | some c =>
      cases ht : d.timestamp with
      | none => exact ⟨_, rfl⟩
      | some s =>
        rw [hr, hc, ht] at h
        simp at h
        cases hf : fromisoformat s with
        | none => exact ⟨"ValueError: invalid isoformat string", by simp [hf]⟩
        | some t => rw [hf] at h; simp at h

theorem buildWidgetMessages_error (data : List Rec)
    (h : ∃ d ∈ data, invalidRec d = true) :
    ∃ e, Widget.buildWidgetMessages data = .error e := by
  induction data with
  | nil => simp at h
  | cons d ds ih =>
    rcases h with ⟨x, hx, hinv⟩
    rcases List.mem_cons.mp hx with rfl | hx'
    · rcases parseRecord_error_of_invalid x hinv with ⟨e, he⟩
      exact ⟨e, by simp [Widget.buildWidgetMessages, he]⟩
    · cases hp : Widget.parseRecord d with
      | error e => exact ⟨e, by simp [Widget.buildWidgetMessages, hp]⟩
      | ok m =>
        rcases ih ⟨x, hx', hinv⟩ with ⟨e, he⟩
        exact ⟨e, by simp [Widget.buildWidgetMessages, hp, he]⟩

theorem buildMessages_error (data : List Rec)
    (h : ∃ d ∈ data, invalidRec d = true) :
    ∃ e, Desktop.buildMessages data = .error e := by
  induction data with
  | nil => simp at h
  | cons d ds ih =>
    rcases h with ⟨x, hx, hinv⟩
    rcases List.mem_cons.mp hx with rfl | hx'
    · rcases from_dict_error_of_invalid x hinv with ⟨e, he⟩
      exact ⟨e, by simp [Desktop.buildMessages, he]⟩
    · cases hp : Desktop.Message.from_dict d with
      | error e => exact ⟨e, by simp [Desktop.buildMessages, hp]⟩
      | ok m =>
        rcases ih ⟨x, hx', hinv⟩ with ⟨e, he⟩
        exact ⟨e, by simp [Desktop.buildMessages, hp, he]⟩

/-- C5 counterexample: importing a payload whose single record lacks the
role key into a widget holding one message raises, but afterwards the stored
sequence is empty, not the prior one-message sequence. -/
theorem import_history_clears_on_failure_cex :
    (Widget.import_history
        { messages := [⟨"user", "hi", 0, "text"⟩], streamingIdx := none }
        [{ role := none, content := some "x", timestamp := some "0" }]).2.isSome
      = true
    ∧ (Widget.import_history
        { messages := [⟨"user", "hi", 0, "text"⟩], streamingIdx := none }
        [{ role := none, content := some "x", timestamp := some "0" }]).1.messages
      ≠ [⟨"user", "hi", 0, "text"⟩] := by
  decide

/-- C5 amended: a payload containing a structurally invalid record makes
the import fail with a descriptive error and no partial import is retained:
`ChatWidget.import_history` leaves the stored sequence empty (it clears
before parsing and clears again on failure), while the desktop
`ChatHistory.import_history` leaves the history exactly as it was before the
call. -/
theorem import_history_rejects_invalid (st : Widget.ChatState)
    (h : Desktop.ChatHistory) (data : List Rec)
    (hinv : ∃ d ∈ data, invalidRec d = true) :
    ((Widget.import_history st data).2.isSome = true
      ∧ (Widget.import_history st data).1.messages = [])
    ∧ ((Desktop.ChatHistory.import_history h data).2.isSome = true
      ∧ (Desktop.ChatHistory.import_history h data).1 = h) := by
  rcases buildWidgetMessages_error data hinv with ⟨e, he⟩
  rcases buildMessages_error data hinv with ⟨e2, he2⟩
  constructor
  · unfold Widget.import_history
    rw [he]
    exact ⟨rfl, rfl⟩
  · unfold Desktop.ChatHistory.import_history
    rw [he2]
    exact ⟨rfl, rfl⟩

/-- Witness for C5 amended at a concrete invalid payload. -/
theorem import_history_rejects_invalid_witness :
    (Desktop.ChatHistory.import_history
        { messages := [⟨Desktop.Role.user, "old", 3, "text"⟩], max_length := 20 }
        [{ role := some "user", content := some "x", timestamp := some "zz" }]).1
      = { messages := [⟨Desktop.Role.user, "old", 3, "text"⟩], max_length := 20 } :=
  (import_history_rejects_invalid
    { messages := [], streamingIdx := none }
    { messages := [⟨Desktop.Role.user, "old", 3, "text"⟩], max_length := 20 }
    [{ role := some "user", content := some "x", timestamp := some "zz" }]
    ⟨_, List.mem_singleton.mpr rfl, by decide⟩).2.2

/-! ### Round-trip lemmas -/

theorem ofStr_toStr (r : Desktop.Role) :
    Desktop.Role.ofStr (Desktop.Role.toStr r) = some r := by
  cases r <;> rfl

theorem from_dict_to_dict (m : Desktop.Message) :
    Desktop.Message.from_dict (Desktop.Message.to_dict m)
      = .ok { role := m.role, content := m.content, timestamp := m.timestamp } := by
  simp [Desktop.Message.from_dict, Desktop.Message.to_dict,
    fromisoformat_isoformat, ofStr_toStr]

theorem buildMessages_map_to_dict (l : List Desktop.Message) :
    Desktop.buildMessages (l.map Desktop.Message.to_dict)
      = .ok (l.map fun m =>
          { role := m.role, content := m.content, timestamp := m.timestamp }) := by
  induction l with
  | nil => rfl
  | cons m ms ih => simp [Desktop.buildMessages, from_dict_to_dict, ih]

theorem parseRecord_to_dict (m : Message) :
    Widget.parseRecord (Message.to_dict m)
      = .ok { role := m.role, content := m.content, timestamp := m.timestamp } := by
  simp [Widget.parseRecord, Message.to_dict, fromisoformat_isoformat]

theorem buildWidgetMessages_map_to_dict (l : List Message) :
    Widget.buildWidgetMessages (l.map Message.to_dict)
      = .ok (l.map fun m =>
          { role := m.role, content := m.content, timestamp := m.timestamp }) := by
  induction l with
  | nil => rfl
  | cons m ms ih => simp [Widget.buildWidgetMessages, parseRecord_to_dict, ih]

/-- C6: importing the result of exporting a non-empty history succeeds and
reproduces the ordered message sequence with identical role, content and
timestamp at every position, both for the desktop `ChatHistory` and for the
`ChatWidget`. -/
theorem import_export_roundtrip (h : Desktop.ChatHistory)
    (st : Widget.ChatState) (hne : h.messages ≠ []) (hne2 : st.messages ≠ []) :
    ((Desktop.ChatHistory.import_history h
          (Desktop.ChatHistory.export_history h)).2 = none
      ∧ (Desktop.ChatHistory.import_history h
            (Desktop.ChatHistory.export_history h)).1.messages.map
          (fun m => (m.role, m.content, m.timestamp))
        = h.messages.map (fun m => (m.role, m.content, m.timestamp)))
    ∧ ((Widget.import_history st (Widget.export_history st)).2 = none
      ∧ (Widget.import_history st (Widget.export_history st)).1.messages.map
          (fun m => (m.role, m.content, m.timestamp))
        = st.messages.map (fun m => (m.role, m.content, m.timestamp))) := by
  constructor
  · unfold Desktop.ChatHistory.import_history Desktop.ChatHistory.export_history
    rw [buildMessages_map_to_dict]
    exact ⟨rfl, by simp [List.map_map]⟩
  · unfold Widget.import_history Widget.export_history
    rw [buildWidgetMessages_map_to_dict]
    exact ⟨rfl, by simp [List.map_map]⟩

/-- Witness for C6 at a concrete one-message history. -/
theorem import_export_roundtrip_witness :
    (Desktop.ChatHistory.import_history
        { messages := [⟨Desktop.Role.user, "hi", 5, "text"⟩], max_length := 20 }
        (Desktop.ChatHistory.export_history
          { messages := [⟨Desktop.Role.user, "hi", 5, "text"⟩], max_length := 20 })).2
      = none :=
  (import_export_roundtrip
    { messages := [⟨Desktop.Role.user, "hi", 5, "text"⟩], max_length := 20 }
    { messages := [⟨"user", "hi", 5, "text"⟩], streamingIdx := none }
    (by decide) (by decide)).1.1

/-! ### Streaming cancellation and terminal-state behaviour -/

/-- C7 counterexample: in the stop-after-"Hel" scenario the streamed
message's final content is "Hel\n\n[Abgebrochen]" (the marker the code
appends), which differs from the claimed "Hel[Cancelled]". -/
theorem cancel_marker_cex :
    ((run_signals 2
        (Widget.add_message
          (Widget.add_message { messages := [], streamingIdx := none }
            "user" "Frage" false 0)
          "assistant" "" true 1)
        (make_request_stream ["Hel"] (some 1))).messages.map
      (fun m => m.content) = ["Frage", "Hel\n\n[Abgebrochen]"])
    ∧ ¬ ((run_signals 2
        (Widget.add_message
          (Widget.add_message { messages := [], streamingIdx := none }
            "user" "Frage" false 0)
          "assistant" "" true 1)
        (make_request_stream ["Hel"] (some 1))).messages.map
      (fun m => m.content) = ["Frage", "Hel[Cancelled]"]) := by
  decide

/-- C7 amended: when a stop is requested after the single fragment "Hel" and
the stream terminates, the streamed message ends as the partial content plus
the fixed marker "\n\n[Abgebrochen]", the outcome is the cancelled state and
the stream is closed. -/
theorem cancelled_stream_marker :
    ((run_signals 2
        (Widget.add_message
          (Widget.add_message { messages := [], streamingIdx := none }
            "user" "Frage" false 0)
          "assistant" "" true 1)
        (make_request_stream ["Hel"] (some 1))).messages.map
      (fun m => m.content) = ["Frage", "Hel\n\n[Abgebrochen]"])
    ∧ outcome (make_request_stream ["Hel"] (some 1)) = Outcome.cancelled
    ∧ (run_signals 2
        (Widget.add_message
          (Widget.add_message { messages := [], streamingIdx := none }
            "user" "Frage" false 0)
          "assistant" "" true 1)
        (make_request_stream ["Hel"] (some 1))).streamingIdx = none := by
  decide

/-- C8 counterexample: after the worker finished (terminal state), a further
fragment append is silently ignored — the call returns the state unchanged
instead of signalling the ordering violation. -/
theorem append_after_terminal_cex :
    Widget.add_stream_chunk
        (on_worker_finish
          { messages := [⟨"assistant", "done", 0, "text"⟩],
            streamingIdx := some 0 }) "x"
      = on_worker_finish
          { messages := [⟨"assistant", "done", 0, "text"⟩],
            streamingIdx := some 0 } := by
  decide

/-- C8 amended: every terminal path ends the stream, and once no stream is
live a fragment append is a silent no-op: the state, and hence every message
content, is unchanged, and no misuse signal of any kind is raised (the
operation is total and error-free). -/
theorem append_after_terminal_noop (st : Widget.ChatState) (c : String) :
    (on_worker_finish st).streamingIdx = none
    ∧ (st.streamingIdx = none → Widget.add_stream_chunk st c = st) := by
  constructor
  · rfl
  · intro hn
    unfold Widget.add_stream_chunk
    rw [hn]

/-- Witness for C8 amended at a concrete terminal state. -/
theorem append_after_terminal_noop_witness :
    Widget.add_stream_chunk
        { messages := [⟨"assistant", "ok", 0, "text"⟩], streamingIdx := none }
        "x"
      = { messages := [⟨"assistant", "ok", 0, "text"⟩], streamingIdx := none } :=
  (append_after_terminal_noop
    { messages := [⟨"assistant", "ok", 0, "text"⟩], streamingIdx := none }
    "x").2 rfl

/-! ### Plugin dispatch -/

theorem dispatch_iff (msg : String) (plugins : List (String → Except String Bool)) :
    dispatch_user_message plugins msg = true ↔
      ∃ p ∈ plugins, p msg = Except.ok true := by
  induction plugins with
  | nil => simp [dispatch_user_message]
  | cons p rest ih =>
    unfold dispatch_user_message
    cases hp : p msg with
    | ok b =>
      cases b with
      | true =>
        simp only [List.mem_cons]
        constructor
        · intro _
          exact ⟨p, Or.inl rfl, hp⟩
        · intro _
          trivial
      | false =>
        rw [ih]
        constructor
        · rintro ⟨q, hq, hq2⟩
          exact ⟨q, List.mem_cons_of_mem p hq, hq2⟩
        · rintro ⟨q, hq, hq2⟩
          rcases List.mem_cons.mp hq with rfl | hq2m
          · rw [hp] at hq2
            simp at hq2
          · exact ⟨q, hq2m, hq2⟩
    | error e =>
      rw [ih]
      constructor
      · rintro ⟨q, hq, hq2⟩
        exact ⟨q, List.mem_cons_of_mem p hq, hq2⟩
      · rintro ⟨q, hq, hq2⟩
        rcases List.mem_cons.mp hq with rfl | hq2m
        · rw [hp] at hq2
          simp at hq2
        · exact ⟨q, hq2m, hq2⟩

/-- C10: user-message dispatch returns true exactly when some loaded plugin's
hook returns True; a raising hook is treated as not having handled the
message (dispatch is a total boolean function, so no plugin failure reaches
the caller); when no plugin handles the text the result is false; and the
first handling plugin decides the result regardless of what follows it. -/
theorem dispatch_user_message_spec (msg : String) :
    (∀ plugins, dispatch_user_message plugins msg = true ↔
      ∃ p ∈ plugins, p msg = Except.ok true)
    ∧ (∀ plugins, (∀ p ∈ plugins, p msg ≠ Except.ok true) →
      dispatch_user_message plugins msg = false)
    ∧ (∀ (pre post : List (String → Except String Bool)) (p),
        (∀ q ∈ pre, q msg ≠ Except.ok true) → p msg = Except.ok true →
        dispatch_user_message (pre ++ p :: post) msg = true) := by
  refine ⟨fun plugins => dispatch_iff msg plugins, ?_, ?_⟩
  · intro plugins hnone
    cases hb : dispatch_user_message plugins msg with
    | false => rfl
    | true =>
      rcases (dispatch_iff msg plugins).mp hb with ⟨q, hq, hq2⟩
      exact absurd hq2 (hnone q hq)
  · intro pre post p hpre hp
    induction pre with
    | nil =>
      rw [List.nil_append]
      simp [dispatch_user_message, hp]
    | cons q qre ih =>
      rw [List.cons_append]
      simp only [dispatch_user_message]
      cases hq : q msg with
      | ok b =>
        cases b with
        | true =>
          exact absurd hq (hpre q (List.mem_cons_self q qre))
        | false =>
          exact ih fun x hx => hpre x (List.mem_cons_of_mem q hx)
      | error e =>
        exact ih fun x hx => hpre x (List.mem_cons_of_mem q hx)

/-- Witness for C10 at a concrete plugin list: a raising plugin is skipped
and the next plugin handles the message. -/
theorem dispatch_user_message_spec_witness :
    dispatch_user_message
        [fun _ => Except.error "boom", fun _ => Except.ok true,
          fun _ => Except.ok false] "hi" = true :=
  (dispatch_user_message_spec "hi").2.2 [fun _ => Except.error "boom"]
    [fun _ => Except.ok false] (fun _ => Except.ok true)
    (by
      intro q hq
      simp only [List.mem_singleton] at hq
      subst hq
      simp)
    rfl

end OpenChat
